import Mathlib

/-!
# FarmVenture backend — booking lifecycle and capacity accounting

Shallow embedding of the booking core of the FarmVenture backend
(`controllers/bookings.py`, `models/booking.py`, `models/activity.py`,
`models/user.py`, `serializers/booking.py`) and proofs about it.

Modelling conventions:
* Python `datetime` values are modelled by `PyDateTime`: a wall-clock
  reading in seconds (`wall`, proleptic, so that the calendar date is
  `wall.fdiv 86400`) together with an optional UTC offset `tz` in
  seconds (`none` models a timezone-naive value).  Comparison of two
  aware datetimes compares instants (`wall - offset`), and `.date()`
  reads the wall clock, exactly as in Python.
* `datetime.now(timezone.utc)` is an aware UTC value; handlers take it
  as a plain integer `now` of UTC seconds.
* The database is modelled per activity: one `ActivityModel` row plus
  the list of `BookingModel` rows (bookings on other activities never
  touch this activity's counter or rows).  A request for a different
  `activity_id` is the `404 Not Found` case.  Primary keys come from
  `nextId` (autoincrement).
* The `status_filter` query string only matters through membership in
  `{"past", "today", "upcoming"}`; it is modelled by the enumeration
  `FilterString` (`other` standing for every invalid string).
* Fields no claim touches (title, price, location, `booked_at`
  ordering, response messages) are omitted.
-/

/-- A Python `datetime`: wall-clock seconds plus optional tz offset
(seconds east of UTC); `tz = none` models a naive datetime. -/
structure PyDateTime where
  wall : Int
  tz : Option Int
  deriving DecidableEq, Repr

/-- The instant a (made-aware) datetime denotes, in UTC seconds: Python
compares aware datetimes by subtracting their `utcoffset`. -/
def instantOf (dt : PyDateTime) : Int :=
  dt.wall - dt.tz.getD 0

/-- Python's `dt.date()`, as a day number: the calendar date read off
the wall clock in the datetime's own zone. -/
def dateOf (dt : PyDateTime) : Int :=
  Int.fdiv dt.wall 86400

/-- Model of `ensure_aware_datetime` (bookings.py lines 15–21), on the non-`None`
path: a naive datetime gets `tzinfo=timezone.utc` (same wall clock),
an aware one is returned unchanged. -/
def ensure_aware_datetime (dt : PyDateTime) : PyDateTime :=
  if dt.tz = none then { dt with tz := some 0 } else dt

/-- Model of `BookingStatus` (models/booking.py lines 7–10). -/
inductive BookingStatus where
  | past
  | today
  | upcoming
  deriving DecidableEq, Repr

/-- Model of `UserRole` (models/user.py): `customer` or `admin`. -/
inductive UserRole where
  | customer
  | admin
  deriving DecidableEq, Repr

/-- The fields of `UserModel` the booking controller reads. -/
structure UserModel where
  id : Int
  role : UserRole
  deriving DecidableEq, Repr

/-- The fields of `ActivityModel` (models/activity.py) the booking
controller reads or writes. -/
structure ActivityModel where
  id : Int
  date_time : PyDateTime
  max_capacity : Int
  current_capacity : Int
  is_active : Bool
  deriving DecidableEq, Repr

/-- A `bookings` table row (models/booking.py lines 12–26). -/
structure BookingModel where
  id : Int
  user_id : Int
  activity_id : Int
  tickets_number : Int
  status : BookingStatus
  deriving DecidableEq, Repr

/-- Model of `BookingModel.update_status` (models/booking.py lines 28–48) as a
pure classifier: a naive activity date is assumed UTC, then calendar
dates are compared against `now.date()` (`now` is aware UTC). -/
def update_status (activity_date : PyDateTime) (now : Int) : BookingStatus :=
  let activity_date_aware :=
    if activity_date.tz = none then { activity_date with tz := some 0 }
    else activity_date
  if dateOf activity_date_aware < Int.fdiv now 86400 then BookingStatus.past
  else if dateOf activity_date_aware = Int.fdiv now 86400 then BookingStatus.today
  else BookingStatus.upcoming

/-- The per-activity slice of the database: the activity row, its
booking rows, and the autoincrement counter for booking ids. -/
structure DB where
  activity : ActivityModel
  bookings : List BookingModel
  nextId : Int
  deriving DecidableEq, Repr

/-- Model of `db.query(ActivityModel).filter(ActivityModel.id == aid).first()`
against the per-activity slice. -/
def lookupActivity (db : DB) (aid : Int) : Option ActivityModel :=
  if db.activity.id = aid then some db.activity else none

/-- Model of `BookingCreate` (serializers/booking.py lines 12–14). -/
structure BookingCreate where
  activity_id : Int
  tickets_number : Int
  deriving DecidableEq, Repr

/-- Model of `BookingUpdate` (serializers/booking.py lines 16–19): both fields
optional; `none` models an unset field (`exclude_unset`). -/
structure BookingUpdate where
  tickets_number : Option Int
  status : Option BookingStatus
  deriving DecidableEq, Repr

/-- HTTP-level rejections raised by the booking controller. -/
inductive ApiError where
  | adminForbidden
  | activityNotFound
  | pastActivity
  | badTicketCount
  | capacityExceeded
  | duplicateBooking
  | bookingNotFound
  | notOwner
  | badStatusFilter
  deriving DecidableEq, Repr

/-- Model of `create_booking` (bookings.py lines 23–127).  Checks, in source
order: admin role (403), activity lookup (404), past activity (400),
ticket count (400), capacity (400), duplicate booking (400); then
computes the initial status from the activity date (lines 88–95),
inserts the row and bumps `current_capacity` by `tickets_number`. -/
def create_booking (now : Int) (current_user : UserModel)
    (booking : BookingCreate) (db : DB) :
    Except ApiError (DB × BookingModel) :=
  if current_user.role = UserRole.admin then
    Except.error ApiError.adminForbidden
  else
    match lookupActivity db booking.activity_id with
    | none => Except.error ApiError.activityNotFound
    | some activity =>
      let activity_date_aware := ensure_aware_datetime activity.date_time
      if instantOf activity_date_aware < now then
        Except.error ApiError.pastActivity
      else if booking.tickets_number < 1 then
        Except.error ApiError.badTicketCount
      else
        let spots_available := activity.max_capacity - activity.current_capacity
        if booking.tickets_number > spots_available then
          Except.error ApiError.capacityExceeded
        else if db.bookings.any (fun b =>
            b.user_id == current_user.id && b.activity_id == booking.activity_id) then
          Except.error ApiError.duplicateBooking
        else
          let initial_status :=
            if dateOf activity_date_aware < Int.fdiv now 86400 then BookingStatus.past
            else if dateOf activity_date_aware = Int.fdiv now 86400 then BookingStatus.today
            else BookingStatus.upcoming
          let new_booking : BookingModel :=
            { id := db.nextId
              user_id := current_user.id
              activity_id := booking.activity_id
              tickets_number := booking.tickets_number
              status := initial_status }
          let activity' :=
            { activity with
                current_capacity := activity.current_capacity + booking.tickets_number }
          Except.ok
            ({ db with
                activity := activity'
                bookings := db.bookings ++ [new_booking]
                nextId := db.nextId + 1 },
             new_booking)

/-- Model of `update_booking` (bookings.py lines 246–329).  After the lookup,
ownership, activity and past-date checks, a given `tickets_number` is
validated (`≥ 1`, then capacity when the delta is nonzero) and the
ledger moved by the delta; then the payload fields are applied to the
row (the `setattr` loop over `exclude_unset` fields, lines 313–315)
and `update_status` recomputes the status (line 318) before commit. -/
def update_booking (now : Int) (current_user : UserModel) (booking_id : Int)
    (booking_update : BookingUpdate) (db : DB) :
    Except ApiError (DB × BookingModel) :=
  match db.bookings.find? (fun b => b.id == booking_id) with
  | none => Except.error ApiError.bookingNotFound
  | some booking =>
    if current_user.role ≠ UserRole.admin ∧ booking.user_id ≠ current_user.id then
      Except.error ApiError.notOwner
    else
      match lookupActivity db booking.activity_id with
      | none => Except.error ApiError.activityNotFound
      | some activity =>
        if instantOf (ensure_aware_datetime activity.date_time) < now then
          Except.error ApiError.pastActivity
        else
          let capacityStep : Except ApiError Int :=
            match booking_update.tickets_number with
            | none => Except.ok activity.current_capacity
            | some n =>
              if n < 1 then Except.error ApiError.badTicketCount
              else
                let ticket_diff := n - booking.tickets_number
                if ticket_diff ≠ 0 then
                  let spots_available :=
                    activity.max_capacity - activity.current_capacity
                      + booking.tickets_number
                  if n > spots_available then Except.error ApiError.capacityExceeded
                  else Except.ok (activity.current_capacity + ticket_diff)
                else Except.ok activity.current_capacity
          match capacityStep with
          | Except.error e => Except.error e
          | Except.ok newCapacity =>
            let patched :=
              { booking with
                  tickets_number :=
                    booking_update.tickets_number.getD booking.tickets_number
                  status := booking_update.status.getD booking.status }
            let booking' :=
              { patched with status := update_status activity.date_time now }
            Except.ok
              ({ db with
                  activity := { activity with current_capacity := newCapacity }
                  bookings := db.bookings.map (fun b =>
                    if b.id == booking_id then booking' else b) },
               booking')

/-- Model of `cancel_booking` (bookings.py lines 331–384).  After lookup and
ownership checks, when the activity row exists a past-dated activity
is rejected; otherwise the ledger is decremented by the booking's
tickets, clamped at 0 (lines 369–372), and the row is deleted. -/
def cancel_booking (now : Int) (current_user : UserModel) (booking_id : Int)
    (db : DB) : Except ApiError DB :=
  match db.bookings.find? (fun b => b.id == booking_id) with
  | none => Except.error ApiError.bookingNotFound
  | some booking =>
    if current_user.role ≠ UserRole.admin ∧ booking.user_id ≠ current_user.id then
      Except.error ApiError.notOwner
    else
      match lookupActivity db booking.activity_id with
      | some activity =>
        if instantOf (ensure_aware_datetime activity.date_time) < now then
          Except.error ApiError.pastActivity
        else
          let c := activity.current_capacity - booking.tickets_number
          let activity' :=
            { activity with current_capacity := if c < 0 then 0 else c }
          Except.ok
            { db with
                activity := activity'
                bookings := db.bookings.filter (fun b => !(b.id == booking_id)) }
      | none =>
        Except.ok
          { db with bookings := db.bookings.filter (fun b => !(b.id == booking_id)) }

/-- The `status_filter` query string, through the only distinction the
code makes: one of the three valid spellings, or anything else. -/
inductive FilterString where
  | past
  | today
  | upcoming
  | other
  deriving DecidableEq, Repr

/-- The status value a valid filter string denotes. -/
def statusOfFilter : FilterString → Option BookingStatus
  | FilterString.past => some BookingStatus.past
  | FilterString.today => some BookingStatus.today
  | FilterString.upcoming => some BookingStatus.upcoming
  | FilterString.other => none

/-- Whether a stored row passes the SQL `WHERE` clause of
`get_my_bookings`: owned by the user and, under a filter, stored
status equal to the filter value. -/
def myBookingSelected (uid : Int) (filt : Option BookingStatus)
    (b : BookingModel) : Bool :=
  b.user_id == uid &&
    match filt with
    | none => true
    | some st => b.status == st

/-- Model of `get_my_bookings` (bookings.py lines 128–162): reject an invalid
filter string (400); select the user's rows whose *stored* status
matches the filter; then run `update_status` on each selected row and
commit, returning the refreshed rows. -/
def get_my_bookings (now : Int) (current_user : UserModel)
    (status_filter : Option FilterString) (db : DB) :
    Except ApiError (DB × List BookingModel) :=
  match status_filter with
  | some fs =>
    match statusOfFilter fs with
    | none => Except.error ApiError.badStatusFilter
    | some st =>
      let sel := myBookingSelected current_user.id (some st)
      let refreshed := fun b : BookingModel =>
        { b with status := update_status db.activity.date_time now }
      Except.ok
        ({ db with bookings := db.bookings.map (fun b =>
            if sel b then refreshed b else b) },
         (db.bookings.filter sel).map refreshed)
  | none =>
    let sel := myBookingSelected current_user.id none
    let refreshed := fun b : BookingModel =>
      { b with status := update_status db.activity.date_time now }
    Except.ok
      ({ db with bookings := db.bookings.map (fun b =>
          if sel b then refreshed b else b) },
       (db.bookings.filter sel).map refreshed)

/-- One booking-lifecycle request, with the wall clock at which it is
served. -/
inductive Op where
  | create (now : Int) (user : UserModel) (req : BookingCreate)
  | update (now : Int) (user : UserModel) (booking_id : Int) (upd : BookingUpdate)
  | cancel (now : Int) (user : UserModel) (booking_id : Int)
  deriving Repr

/-- The committed state after one request: a rejected request rolls
back to the incoming state. -/
def step (db : DB) (op : Op) : DB :=
  match op with
  | Op.create now u req =>
    match create_booking now u req db with
    | Except.ok (db', _) => db'
    | Except.error _ => db
  | Op.update now u bid upd =>
    match update_booking now u bid upd db with
    | Except.ok (db', _) => db'
    | Except.error _ => db
  | Op.cancel now u bid =>
    match cancel_booking now u bid db with
    | Except.ok db' => db'
    | Except.error _ => db

/-- The committed state after a sequence of requests. -/
def run (db : DB) (ops : List Op) : DB :=
  ops.foldl step db

/-- Total tickets held by a list of booking rows. -/
def sumTickets (l : List BookingModel) : Int :=
  (l.map BookingModel.tickets_number).sum

/-- The capacity bounds of the spec:
`0 ≤ current_capacity ≤ max_capacity`. -/
def capInv (db : DB) : Prop :=
  0 ≤ db.activity.current_capacity ∧
    db.activity.current_capacity ≤ db.activity.max_capacity

/-- Every booking row holds at least one ticket. -/
def ticketsPos (db : DB) : Prop :=
  ∀ b ∈ db.bookings, 1 ≤ b.tickets_number

/-- Primary-key well-formedness: booking ids are pairwise distinct and
below the autoincrement counter. -/
def idsOk (db : DB) : Prop :=
  db.bookings.Pairwise (fun a b => a.id ≠ b.id) ∧
    ∀ b ∈ db.bookings, b.id < db.nextId

/-- Conservation: the tickets held by the rows add up to the ledger. -/
def conservation (db : DB) : Prop :=
  sumTickets db.bookings = db.activity.current_capacity

/-- At most one booking row per (user, activity) pair. -/
def uniqueUserActivity (db : DB) : Prop :=
  db.bookings.Pairwise (fun a b =>
    ¬(a.user_id = b.user_id ∧ a.activity_id = b.activity_id))

instance : DecidablePred capInv := fun db => by
  unfold capInv; infer_instance

instance : DecidablePred ticketsPos := fun db => by
  unfold ticketsPos; infer_instance

instance : DecidablePred idsOk := fun db => by
  unfold idsOk; infer_instance

instance : DecidablePred conservation := fun db => by
  unfold conservation; infer_instance

instance : DecidablePred uniqueUserActivity := fun db => by
  unfold uniqueUserActivity; infer_instance

/-! ## Helper lemmas -/

lemma fdiv_day_mono {a b : Int} (h : a ≤ b) :
    Int.fdiv a 86400 ≤ Int.fdiv b 86400 := by
  rw [Int.fdiv_eq_ediv _ (by norm_num), Int.fdiv_eq_ediv _ (by norm_num)]
  exact Int.ediv_le_ediv (by norm_num) h

lemma sumTickets_append (l : List BookingModel) (b : BookingModel) :
    sumTickets (l ++ [b]) = sumTickets l + b.tickets_number := by
  simp [sumTickets]

lemma sumTickets_nonneg {l : List BookingModel}
    (h : ∀ b ∈ l, 1 ≤ b.tickets_number) : 0 ≤ sumTickets l := by
  induction l with
  | nil => simp [sumTickets]
  | cons hd tl ih =>
    have h1 := h hd (by simp)
    have h2 : 0 ≤ sumTickets tl := ih (fun b hb => h b (by simp [hb]))
    simp only [sumTickets, List.map_cons, List.sum_cons] at *
    omega

lemma single_le_sumTickets {l : List BookingModel} {b : BookingModel}
    (hpos : ∀ x ∈ l, 1 ≤ x.tickets_number) (hb : b ∈ l) :
    b.tickets_number ≤ sumTickets l := by
  induction l with
  | nil => simp at hb
  | cons hd tl ih =>
    have htl : 0 ≤ sumTickets tl :=
      sumTickets_nonneg (fun x hx => hpos x (by simp [hx]))
    rcases List.mem_cons.mp hb with rfl | hb'
    · simp only [sumTickets, List.map_cons, List.sum_cons] at *
      omega
    · have := ih (fun x hx => hpos x (by simp [hx])) hb'
      have hhd := hpos hd (by simp)
      simp only [sumTickets, List.map_cons, List.sum_cons] at *
      omega

/-- Replacing the (unique) row with a given id changes the ticket sum
by the difference between the new and the old row. -/
lemma sumTickets_replace {l : List BookingModel} {bid : Int}
    {booking b' : BookingModel}
    (hfind : l.find? (fun b => b.id == bid) = some booking)
    (hpw : l.Pairwise (fun a b => a.id ≠ b.id)) :
    sumTickets (l.map (fun b => if b.id == bid then b' else b)) =
      sumTickets l - booking.tickets_number + b'.tickets_number := by
  induction l with
  | nil => simp at hfind
  | cons hd tl ih =>
    rcases List.pairwise_cons.mp hpw with ⟨hhd, htlpw⟩
    by_cases h : hd.id = bid
    · rw [List.find?_cons_of_pos _ (by simp [h])] at hfind
      have hbk : booking = hd := by injection hfind with h2; exact h2.symm
      have htl : ∀ b ∈ tl, (if b.id == bid then b' else b) = b := by
        intro b hb
        have hne : hd.id ≠ b.id := hhd b hb
        have hnb : ¬(b.id = bid) := fun hc => hne (by rw [h, hc])
        simp [hnb]
      rw [List.map_cons, List.map_congr_left htl, List.map_id']
      have hif : (if hd.id == bid then b' else hd) = b' := by simp [h]
      rw [hif, hbk]
      simp only [sumTickets, List.map_cons, List.sum_cons]
      ring
    · rw [List.find?_cons_of_neg _ (by simp [h])] at hfind
      have hrec := ih hfind htlpw
      rw [List.map_cons]
      have hif : (if hd.id == bid then b' else hd) = hd := by simp [h]
      rw [hif]
      simp only [sumTickets, List.map_cons, List.sum_cons] at *
      omega

/-- Deleting the (unique) row with a given id removes exactly its
tickets from the sum. -/
lemma sumTickets_eraseId {l : List BookingModel} {bid : Int}
    {booking : BookingModel}
    (hfind : l.find? (fun b => b.id == bid) = some booking)
    (hpw : l.Pairwise (fun a b => a.id ≠ b.id)) :
    sumTickets (l.filter (fun b => !(b.id == bid))) =
      sumTickets l - booking.tickets_number := by
  induction l with
  | nil => simp at hfind
  | cons hd tl ih =>
    rcases List.pairwise_cons.mp hpw with ⟨hhd, htlpw⟩
    by_cases h : hd.id = bid
    · rw [List.find?_cons_of_pos _ (by simp [h])] at hfind
      have hbk : booking = hd := by injection hfind with h2; exact h2.symm
      have htl : ∀ b ∈ tl, (!(b.id == bid)) = true := by
        intro b hb
        have hne : hd.id ≠ b.id := hhd b hb
        have hnb : ¬(b.id = bid) := fun hc => hne (by rw [h, hc])
        simp [hnb]
      rw [List.filter_cons]
      have hcond : (!(hd.id == bid)) = false := by simp [h]
      rw [hcond, if_neg (by simp), List.filter_eq_self.mpr htl, hbk]
      simp only [sumTickets, List.map_cons, List.sum_cons]
      ring
    · rw [List.find?_cons_of_neg _ (by simp [h])] at hfind
      have hrec := ih hfind htlpw
      rw [List.filter_cons]
      have hcond : (!(hd.id == bid)) = true := by simp [h]
      rw [hcond, if_pos rfl]
      simp only [sumTickets, List.map_cons, List.sum_cons] at *
      omega

/-! ## Handler characterizations -/

/-- What a successful `create_booking` guarantees: every check passed
and the committed state holds the fresh row with the ledger bumped. -/
lemma create_booking_ok {now : Int} {u : UserModel} {req : BookingCreate}
    {db db' : DB} {b : BookingModel}
    (h : create_booking now u req db = Except.ok (db', b)) :
    u.role ≠ UserRole.admin ∧
    req.activity_id = db.activity.id ∧
    ¬ instantOf (ensure_aware_datetime db.activity.date_time) < now ∧
    1 ≤ req.tickets_number ∧
    req.tickets_number ≤ db.activity.max_capacity - db.activity.current_capacity ∧
    db.bookings.any (fun x =>
      x.user_id == u.id && x.activity_id == req.activity_id) = false ∧
    b.id = db.nextId ∧ b.user_id = u.id ∧ b.activity_id = req.activity_id ∧
    b.tickets_number = req.tickets_number ∧
    b.status = (if dateOf (ensure_aware_datetime db.activity.date_time)
                    < Int.fdiv now 86400 then BookingStatus.past
                else if dateOf (ensure_aware_datetime db.activity.date_time)
                    = Int.fdiv now 86400 then BookingStatus.today
                else BookingStatus.upcoming) ∧
    db'.activity = { db.activity with
        current_capacity := db.activity.current_capacity + req.tickets_number } ∧
    db'.bookings = db.bookings ++ [b] ∧
    db'.nextId = db.nextId + 1 := by
  by_cases hrole : u.role = UserRole.admin
  · unfold create_booking at h
    rw [if_pos hrole] at h
    simp at h
  · unfold create_booking at h
    rw [if_neg hrole] at h
    split at h
    · simp at h
    · rename_i activity heq
      have hpair : db.activity.id = req.activity_id ∧ activity = db.activity := by
        unfold lookupActivity at heq
        by_cases hc : db.activity.id = req.activity_id
        · rw [if_pos hc] at heq
          refine ⟨hc, ?_⟩
          injection heq with h2
          exact h2.symm
        · rw [if_neg hc] at heq
          simp at heq
      obtain ⟨hid1, rfl⟩ := hpair
      dsimp only at h
      split at h
      · simp at h
      · split at h
        · simp at h
        · split at h
          · simp at h
          · split at h
            · simp at h
            · rename_i hpast htick hcap hdup
              rw [Except.ok.injEq, Prod.mk.injEq] at h
              obtain ⟨rfl, rfl⟩ := h
              refine ⟨hrole, hid1.symm, hpast, by omega, by omega,
                Bool.eq_false_iff.mpr hdup, rfl, rfl, rfl, rfl, rfl, rfl, rfl, rfl⟩

/-- What a successful `update_booking` guarantees: the row was found,
the caller was authorized, the activity is not past, a given ticket
count passed its checks, and the committed state moved the ledger by
the signed delta while rewriting the row (with status recomputed). -/
lemma update_booking_ok {now : Int} {u : UserModel} {bid : Int}
    {bu : BookingUpdate} {db db' : DB} {b' : BookingModel}
    (h : update_booking now u bid bu db = Except.ok (db', b')) :
    ∃ booking, db.bookings.find? (fun x => x.id == bid) = some booking ∧
      ¬(u.role ≠ UserRole.admin ∧ booking.user_id ≠ u.id) ∧
      db.activity.id = booking.activity_id ∧
      ¬ instantOf (ensure_aware_datetime db.activity.date_time) < now ∧
      (∀ n, bu.tickets_number = some n → 1 ≤ n ∧
        (n ≠ booking.tickets_number →
          n ≤ db.activity.max_capacity - db.activity.current_capacity
              + booking.tickets_number)) ∧
      b'.id = booking.id ∧ b'.user_id = booking.user_id ∧
      b'.activity_id = booking.activity_id ∧
      b'.tickets_number = bu.tickets_number.getD booking.tickets_number ∧
      b'.status = update_status db.activity.date_time now ∧
      db'.activity.id = db.activity.id ∧
      db'.activity.date_time = db.activity.date_time ∧
      db'.activity.max_capacity = db.activity.max_capacity ∧
      db'.activity.current_capacity = db.activity.current_capacity
        + (bu.tickets_number.getD booking.tickets_number - booking.tickets_number) ∧
      db'.bookings = db.bookings.map (fun x => if x.id == bid then b' else x) ∧
      db'.nextId = db.nextId := by
  unfold update_booking at h
  split at h
  · simp at h
  · rename_i booking hfind
    refine ⟨booking, hfind, ?_⟩
    split at h
    · simp at h
    · rename_i hown
      split at h
      · simp at h
      · rename_i activity heq
        have hpair : db.activity.id = booking.activity_id ∧ activity = db.activity := by
          unfold lookupActivity at heq
          by_cases hc : db.activity.id = booking.activity_id
          · rw [if_pos hc] at heq
            refine ⟨hc, ?_⟩
            injection heq with h2
            exact h2.symm
          · rw [if_neg hc] at heq
            simp at heq
        obtain ⟨hid1, rfl⟩ := hpair
        split at h
        · simp at h
        · rename_i hpast
          dsimp only at h
          split at h
          · simp at h
          · rename_i newCap hcap
            rw [Except.ok.injEq, Prod.mk.injEq] at h
            obtain ⟨rfl, rfl⟩ := h
            split at hcap
            · rename_i hbt
              simp only [Except.ok.injEq] at hcap
              subst hcap
              refine ⟨hown, hid1, hpast,
                fun m hm => by rw [hbt] at hm; simp at hm,
                rfl, rfl, rfl, rfl, rfl, rfl, rfl, rfl,
                by rw [hbt, Option.getD_none]; ring, rfl, rfl⟩
            · rename_i n hbt
              split at hcap
              · simp at hcap
              · rename_i htickpos
                split at hcap
                · split at hcap
                  · simp at hcap
                  · rename_i hdiff hcapok
                    simp only [Except.ok.injEq] at hcap
                    subst hcap
                    refine ⟨hown, hid1, hpast,
                      fun m hm => by
                        rw [hbt] at hm
                        injection hm with hm2
                        subst hm2
                        exact ⟨by omega, fun _ => by omega⟩,
                      rfl, rfl, rfl, rfl, rfl, rfl, rfl, rfl,
                      by rw [hbt, Option.getD_some], rfl, rfl⟩
                · rename_i hdiff
                  simp only [Except.ok.injEq] at hcap
                  subst hcap
                  have hn : n = booking.tickets_number := by omega
                  refine ⟨hown, hid1, hpast,
                    fun m hm => by
                      rw [hbt] at hm
                      injection hm with hm2
                      subst hm2
                      exact ⟨by omega, fun hc => absurd hn hc⟩,
                    rfl, rfl, rfl, rfl, rfl, rfl, rfl, rfl,
                    by rw [hbt, Option.getD_some]; dsimp only; omega, rfl, rfl⟩

/-- What a successful `cancel_booking` guarantees: the row was found
and deleted by the authorized caller; when the activity row resolves,
the activity is not past and the ledger was decremented with the
clamp at zero; when it does not resolve, the ledger is untouched. -/
lemma cancel_booking_ok {now : Int} {u : UserModel} {bid : Int} {db db' : DB}
    (h : cancel_booking now u bid db = Except.ok db') :
    ∃ booking, db.bookings.find? (fun x => x.id == bid) = some booking ∧
      ¬(u.role ≠ UserRole.admin ∧ booking.user_id ≠ u.id) ∧
      db'.bookings = db.bookings.filter (fun x => !(x.id == bid)) ∧
      db'.nextId = db.nextId ∧
      ((db.activity.id = booking.activity_id ∧
        ¬ instantOf (ensure_aware_datetime db.activity.date_time) < now ∧
        db'.activity = { db.activity with current_capacity :=
          if db.activity.current_capacity - booking.tickets_number < 0 then 0
          else db.activity.current_capacity - booking.tickets_number }) ∨
       (db.activity.id ≠ booking.activity_id ∧ db'.activity = db.activity)) := by
  unfold cancel_booking at h
  split at h
  · simp at h
  · rename_i booking hfind
    refine ⟨booking, hfind, ?_⟩
    split at h
    · simp at h
    · rename_i hown
      split at h
      · rename_i activity heq
        have hpair : db.activity.id = booking.activity_id ∧ activity = db.activity := by
          unfold lookupActivity at heq
          by_cases hc : db.activity.id = booking.activity_id
          · rw [if_pos hc] at heq
            refine ⟨hc, ?_⟩
            injection heq with h2
            exact h2.symm
          · rw [if_neg hc] at heq
            simp at heq
        obtain ⟨hid1, rfl⟩ := hpair
        split at h
        · simp at h
        · rename_i hpast
          simp only [Except.ok.injEq] at h
          subst h
          exact ⟨hown, rfl, rfl, Or.inl ⟨hid1, hpast, rfl⟩⟩
      · rename_i heq
        have hne : db.activity.id ≠ booking.activity_id := by
          unfold lookupActivity at heq
          by_cases hc : db.activity.id = booking.activity_id
          · rw [if_pos hc] at heq
            simp at heq
          · exact hc
        simp only [Except.ok.injEq] at h
        subst h
        exact ⟨hown, rfl, rfl, Or.inr ⟨hne, rfl⟩⟩

/-! ## Invariant preservation -/

/-- Every booking row references the activity of this slice (the
foreign key of the schema). -/
def sameActivityRef (db : DB) : Prop :=
  ∀ b ∈ db.bookings, b.activity_id = db.activity.id

instance : DecidablePred sameActivityRef := fun db => by
  unfold sameActivityRef; infer_instance

/-- With distinct ids, any member carrying the searched id is the row
`find?` returns. -/
lemma eq_of_mem_same_id {l : List BookingModel} {bid : Int}
    {booking x : BookingModel}
    (hfind : l.find? (fun b => b.id == bid) = some booking)
    (hpw : l.Pairwise (fun a b => a.id ≠ b.id))
    (hx : x ∈ l) (hxid : x.id = bid) : x = booking := by
  induction l with
  | nil => simp at hfind
  | cons hd tl ih =>
    rcases List.pairwise_cons.mp hpw with ⟨hhd, htlpw⟩
    by_cases h : hd.id = bid
    · rw [List.find?_cons_of_pos _ (by simp [h])] at hfind
      have hbk : booking = hd := by injection hfind with h2; exact h2.symm
      rcases List.mem_cons.mp hx with rfl | hx'
      · exact hbk.symm
      · exact absurd (hxid.trans h.symm).symm (hhd x hx')
    · rw [List.find?_cons_of_neg _ (by simp [h])] at hfind
      rcases List.mem_cons.mp hx with rfl | hx'
      · exact absurd hxid h
      · exact ih hfind htlpw hx'

lemma sumTickets_filter_le {l : List BookingModel} {p : BookingModel → Bool}
    (hpos : ∀ b ∈ l, 1 ≤ b.tickets_number) :
    sumTickets (l.filter p) ≤ sumTickets l := by
  induction l with
  | nil => simp [sumTickets]
  | cons hd tl ih =>
    have hrec := ih (fun b hb => hpos b (by simp [hb]))
    have hhd := hpos hd (by simp)
    rw [List.filter_cons]
    by_cases h : p hd = true
    · rw [if_pos h]
      simp only [sumTickets, List.map_cons, List.sum_cons] at *
      omega
    · rw [if_neg h]
      simp only [sumTickets, List.map_cons, List.sum_cons] at *
      omega

/-- One committed request keeps primary keys well formed. -/
lemma step_preserves_idsOk {db : DB} (op : Op) (h : idsOk db) :
    idsOk (step db op) := by
  obtain ⟨hpw, hlt⟩ := h
  cases op with
  | create now u req =>
    cases hc : create_booking now u req db with
    | error e =>
      simp only [step, hc]
      exact ⟨hpw, hlt⟩
    | ok p =>
      obtain ⟨db', b⟩ := p
      simp only [step, hc]
      obtain ⟨-, -, -, -, -, -, hbid, -, -, -, -, -, hbks, hnext⟩ :=
        create_booking_ok hc
      constructor
      · rw [hbks, List.pairwise_append]
        refine ⟨hpw, by simp, ?_⟩
        intro a ha c hc'
        have : c = b := by simpa using hc'
        subst this
        rw [hbid]
        exact fun he => absurd (he ▸ hlt a ha) (lt_irrefl _)
      · intro x hx
        rw [hbks] at hx
        rw [hnext]
        rcases List.mem_append.mp hx with hx' | hx'
        · have := hlt x hx'
          omega
        · have : x = b := by simpa using hx'
          subst this
          rw [hbid]
          omega
  | update now u bid upd =>
    cases hc : update_booking now u bid upd db with
    | error e =>
      simp only [step, hc]
      exact ⟨hpw, hlt⟩
    | ok p =>
      obtain ⟨db', b'⟩ := p
      simp only [step, hc]
      obtain ⟨booking, hfind, -, -, -, -, hbid', -, -, -, -, -, -, -, -,
        hbks, hnext⟩ := update_booking_ok hc
      have hbkid : booking.id = bid := by
        have := List.find?_some hfind
        simpa using this
      have hfid : ∀ x : BookingModel,
          ((if x.id == bid then b' else x).id) = x.id := by
        intro x
        by_cases hx : x.id = bid
        · simp [hx, hbid', hbkid]
        · simp [hx]
      constructor
      · rw [hbks, List.pairwise_map]
        exact hpw.imp (fun {a c} hac => by rw [hfid a, hfid c]; exact hac)
      · intro x hx
        rw [hbks] at hx
        rw [hnext]
        rcases List.mem_map.mp hx with ⟨y, hy, rfl⟩
        rw [hfid y]
        exact hlt y hy
  | cancel now u bid =>
    cases hc : cancel_booking now u bid db with
    | error e =>
      simp only [step, hc]
      exact ⟨hpw, hlt⟩
    | ok db' =>
      simp only [step, hc]
      obtain ⟨booking, hfind, -, hbks, hnext, -⟩ := cancel_booking_ok hc
      constructor
      · rw [hbks]
        exact hpw.sublist (List.filter_sublist _)
      · intro x hx
        rw [hbks] at hx
        rw [hnext]
        exact hlt x (List.mem_of_mem_filter hx)

/-- The ledger bundle: positive ticket counts, the row total bounded by
the ledger, and the capacity bounds. -/
def ledgerInv (db : DB) : Prop :=
  ticketsPos db ∧ sumTickets db.bookings ≤ db.activity.current_capacity ∧
    capInv db

instance : DecidablePred ledgerInv := fun db => by
  unfold ledgerInv; infer_instance

/-- One committed request keeps the ledger bundle, hence in particular
`0 ≤ current_capacity ≤ max_capacity`. -/
lemma step_preserves_ledgerInv {db : DB} (op : Op) (hids : idsOk db)
    (h : ledgerInv db) : ledgerInv (step db op) := by
  obtain ⟨hpos, hsum, hlo, hhi⟩ := h
  obtain ⟨hpw, -⟩ := hids
  cases op with
  | create now u req =>
    cases hc : create_booking now u req db with
    | error e =>
      simp only [step, hc]
      exact ⟨hpos, hsum, hlo, hhi⟩
    | ok p =>
      obtain ⟨db', b⟩ := p
      simp only [step, hc]
      obtain ⟨-, -, -, htick, hcap, -, -, -, -, hbt, -, hact, hbks, -⟩ :=
        create_booking_ok hc
      have hcur : db'.activity.current_capacity =
          db.activity.current_capacity + req.tickets_number := by rw [hact]
      have hmax : db'.activity.max_capacity = db.activity.max_capacity := by
        rw [hact]
      refine ⟨?_, ?_, ?_, ?_⟩
      · intro x hx
        rw [hbks] at hx
        rcases List.mem_append.mp hx with hx' | hx'
        · exact hpos x hx'
        · have : x = b := by simpa using hx'
          subst this
          omega
      · rw [hbks, sumTickets_append, hcur]
        omega
      · rw [hcur]; omega
      · rw [hcur, hmax]; omega
  | update now u bid upd =>
    cases hc : update_booking now u bid upd db with
    | error e =>
      simp only [step, hc]
      exact ⟨hpos, hsum, hlo, hhi⟩
    | ok p =>
      obtain ⟨db', b'⟩ := p
      simp only [step, hc]
      obtain ⟨booking, hfind, -, -, -, hn, -, -, -, hbt', -, -, -, hmax,
        hcur, hbks, -⟩ := update_booking_ok hc
      have hmem : booking ∈ db.bookings := List.mem_of_find?_eq_some hfind
      have hold1 : 1 ≤ booking.tickets_number := hpos booking hmem
      have holdsum : booking.tickets_number ≤ sumTickets db.bookings :=
        single_le_sumTickets hpos hmem
      have hsum' : sumTickets db'.bookings =
          sumTickets db.bookings - booking.tickets_number + b'.tickets_number := by
        rw [hbks]
        exact sumTickets_replace hfind hpw
      have hpos' : ticketsPos db' := by
        intro x hx
        rw [hbks] at hx
        rcases List.mem_map.mp hx with ⟨y, hy, rfl⟩
        by_cases hyid : y.id = bid
        · rw [if_pos (by simp [hyid])]
          rw [hbt']
          cases hbu : upd.tickets_number with
          | none => simpa [hbu] using hold1
          | some n =>
            have := (hn n hbu).1
            simpa [hbu] using this
        · rw [if_neg (by simp [hyid])]
          exact hpos y hy
      refine ⟨hpos', ?_, ?_, ?_⟩
      · rw [hsum', hcur, hbt']
        omega
      · cases hbu : upd.tickets_number with
        | none =>
          rw [hcur, hbu]
          simp only [Option.getD_none]
          omega
        | some n =>
          obtain ⟨hn1, hnbound⟩ := hn n hbu
          rw [hcur, hbu]
          simp only [Option.getD_some]
          by_cases hne : n = booking.tickets_number
          · omega
          · have := hnbound hne
            omega
      · cases hbu : upd.tickets_number with
        | none =>
          rw [hcur, hmax, hbu]
          simp only [Option.getD_none]
          omega
        | some n =>
          obtain ⟨hn1, hnbound⟩ := hn n hbu
          rw [hcur, hmax, hbu]
          simp only [Option.getD_some]
          by_cases hne : n = booking.tickets_number
          · omega
          · have := hnbound hne
            omega
  | cancel now u bid =>
    cases hc : cancel_booking now u bid db with
    | error e =>
      simp only [step, hc]
      exact ⟨hpos, hsum, hlo, hhi⟩
    | ok db' =>
      simp only [step, hc]
      obtain ⟨booking, hfind, -, hbks, -, hdisj⟩ := cancel_booking_ok hc
      have hmem : booking ∈ db.bookings := List.mem_of_find?_eq_some hfind
      have hold1 : 1 ≤ booking.tickets_number := hpos booking hmem
      have hpos' : ticketsPos db' := by
        intro x hx
        rw [hbks] at hx
        exact hpos x (List.mem_of_mem_filter hx)
      rcases hdisj with ⟨-, -, hact⟩ | ⟨-, hact⟩
      · have hsum' : sumTickets db'.bookings =
            sumTickets db.bookings - booking.tickets_number := by
          rw [hbks]
          exact sumTickets_eraseId hfind hpw
        have hcur : db'.activity.current_capacity =
            if db.activity.current_capacity - booking.tickets_number < 0 then 0
            else db.activity.current_capacity - booking.tickets_number := by
          rw [hact]
        have hmax : db'.activity.max_capacity = db.activity.max_capacity := by
          rw [hact]
        refine ⟨hpos', ?_, ?_, ?_⟩
        · rw [hsum', hcur]
          split <;> omega
        · rw [hcur]
          split <;> omega
        · rw [hcur, hmax]
          split <;> omega
      · have hsum' : sumTickets db'.bookings ≤ sumTickets db.bookings := by
          rw [hbks]
          exact sumTickets_filter_le hpos
        have hcur : db'.activity.current_capacity =
            db.activity.current_capacity := by rw [hact]
        have hmax : db'.activity.max_capacity = db.activity.max_capacity := by
          rw [hact]
        exact ⟨hpos', by omega, by omega, by omega⟩

/-- The conservation bundle: positive ticket counts, rows referencing
this activity, and the row total equal to the ledger. -/
def consInv (db : DB) : Prop :=
  ticketsPos db ∧ sameActivityRef db ∧ conservation db

instance : DecidablePred consInv := fun db => by
  unfold consInv; infer_instance

/-- One committed request keeps the conservation bundle. -/
lemma step_preserves_consInv {db : DB} (op : Op) (hids : idsOk db)
    (h : consInv db) : consInv (step db op) := by
  obtain ⟨hpos, href, hcons⟩ := h
  obtain ⟨hpw, -⟩ := hids
  cases op with
  | create now u req =>
    cases hc : create_booking now u req db with
    | error e =>
      simp only [step, hc]
      exact ⟨hpos, href, hcons⟩
    | ok p =>
      obtain ⟨db', b⟩ := p
      simp only [step, hc]
      obtain ⟨-, hid, -, -, -, -, -, -, hbact, hbt, -, hact, hbks, -⟩ :=
        create_booking_ok hc
      have hcur : db'.activity.current_capacity =
          db.activity.current_capacity + req.tickets_number := by rw [hact]
      have haid : db'.activity.id = db.activity.id := by rw [hact]
      refine ⟨?_, ?_, ?_⟩
      · intro x hx
        rw [hbks] at hx
        rcases List.mem_append.mp hx with hx' | hx'
        · exact hpos x hx'
        · have : x = b := by simpa using hx'
          subst this
          obtain ⟨-, -, -, htick, -⟩ := create_booking_ok hc
          omega
      · intro x hx
        rw [hbks] at hx
        rw [haid]
        rcases List.mem_append.mp hx with hx' | hx'
        · exact href x hx'
        · have : x = b := by simpa using hx'
          subst this
          rw [hbact, hid]
      · unfold conservation at *
        rw [hbks, sumTickets_append, hcur, hbt]
        omega
  | update now u bid upd =>
    cases hc : update_booking now u bid upd db with
    | error e =>
      simp only [step, hc]
      exact ⟨hpos, href, hcons⟩
    | ok p =>
      obtain ⟨db', b'⟩ := p
      simp only [step, hc]
      obtain ⟨booking, hfind, -, -, -, hn, -, -, hbact, hbt', -, haid, -, -,
        hcur, hbks, -⟩ := update_booking_ok hc
      have hmem : booking ∈ db.bookings := List.mem_of_find?_eq_some hfind
      have hsum' : sumTickets db'.bookings =
          sumTickets db.bookings - booking.tickets_number + b'.tickets_number := by
        rw [hbks]
        exact sumTickets_replace hfind hpw
      refine ⟨?_, ?_, ?_⟩
      · intro x hx
        rw [hbks] at hx
        rcases List.mem_map.mp hx with ⟨y, hy, rfl⟩
        by_cases hyid : y.id = bid
        · rw [if_pos (by simp [hyid])]
          rw [hbt']
          cases hbu : upd.tickets_number with
          | none => simpa [hbu] using hpos booking hmem
          | some n =>
            have := (hn n hbu).1
            simpa [hbu] using this
        · rw [if_neg (by simp [hyid])]
          exact hpos y hy
      · intro x hx
        rw [hbks] at hx
        rw [haid]
        rcases List.mem_map.mp hx with ⟨y, hy, rfl⟩
        by_cases hyid : y.id = bid
        · rw [if_pos (by simp [hyid])]
          rw [hbact]
          exact href booking hmem
        · rw [if_neg (by simp [hyid])]
          exact href y hy
      · unfold conservation at *
        rw [hsum', hcur, hbt']
        omega
  | cancel now u bid =>
    cases hc : cancel_booking now u bid db with
    | error e =>
      simp only [step, hc]
      exact ⟨hpos, href, hcons⟩
    | ok db' =>
      simp only [step, hc]
      obtain ⟨booking, hfind, -, hbks, -, hdisj⟩ := cancel_booking_ok hc
      have hmem : booking ∈ db.bookings := List.mem_of_find?_eq_some hfind
      have hsum' : sumTickets db'.bookings =
          sumTickets db.bookings - booking.tickets_number := by
        rw [hbks]
        exact sumTickets_eraseId hfind hpw
      have holdsum : booking.tickets_number ≤ sumTickets db.bookings :=
        single_le_sumTickets hpos hmem
      rcases hdisj with ⟨-, -, hact⟩ | ⟨hne, -⟩
      · have hcur : db'.activity.current_capacity =
            if db.activity.current_capacity - booking.tickets_number < 0 then 0
            else db.activity.current_capacity - booking.tickets_number := by
          rw [hact]
        have haid : db'.activity.id = db.activity.id := by rw [hact]
        refine ⟨?_, ?_, ?_⟩
        · intro x hx
          rw [hbks] at hx
          exact hpos x (List.mem_of_mem_filter hx)
        · intro x hx
          rw [hbks] at hx
          rw [haid]
          exact href x (List.mem_of_mem_filter hx)
        · unfold conservation at *
          rw [hsum', hcur]
          split <;> omega
      · exact absurd (href booking hmem).symm hne

/-- One committed request keeps the at-most-one-booking-per-(user,
activity) property: `create_booking` refuses duplicates, and the other
operations never add rows. -/
lemma step_preserves_uniqueUserActivity {db : DB} (op : Op) (hids : idsOk db)
    (h : uniqueUserActivity db) : uniqueUserActivity (step db op) := by
  obtain ⟨hpw, -⟩ := hids
  cases op with
  | create now u req =>
    cases hc : create_booking now u req db with
    | error e =>
      simp only [step, hc]
      exact h
    | ok p =>
      obtain ⟨db', b⟩ := p
      simp only [step, hc]
      obtain ⟨-, -, -, -, -, hdup, -, hbuser, hbact, -, -, -, hbks, -⟩ :=
        create_booking_ok hc
      unfold uniqueUserActivity at *
      rw [hbks, List.pairwise_append]
      refine ⟨h, by simp, ?_⟩
      intro a ha c hc'
      have : c = b := by simpa using hc'
      subst this
      have hnodup := List.any_eq_false.mp hdup a ha
      simp only [Bool.and_eq_true, beq_iff_eq, not_and] at hnodup
      rw [hbuser, hbact]
      intro ⟨h1, h2⟩
      exact hnodup h1 h2
  | update now u bid upd =>
    cases hc : update_booking now u bid upd db with
    | error e =>
      simp only [step, hc]
      exact h
    | ok p =>
      obtain ⟨db', b'⟩ := p
      simp only [step, hc]
      obtain ⟨booking, hfind, -, -, -, -, -, hbuser, hbact, -, -, -, -, -, -,
        hbks, -⟩ := update_booking_ok hc
      have huser : ∀ x ∈ db.bookings,
          ((if x.id == bid then b' else x).user_id) = x.user_id := by
        intro x hx
        by_cases hxid : x.id = bid
        · rw [if_pos (by simp [hxid])]
          rw [hbuser, eq_of_mem_same_id hfind hpw hx hxid]
        · rw [if_neg (by simp [hxid])]
      have hactf : ∀ x ∈ db.bookings,
          ((if x.id == bid then b' else x).activity_id) = x.activity_id := by
        intro x hx
        by_cases hxid : x.id = bid
        · rw [if_pos (by simp [hxid])]
          rw [hbact, eq_of_mem_same_id hfind hpw hx hxid]
        · rw [if_neg (by simp [hxid])]
      unfold uniqueUserActivity at *
      rw [hbks, List.pairwise_map]
      refine h.imp_of_mem ?_
      intro a c ha hc2 hac
      rw [huser a ha, hactf a ha, huser c hc2, hactf c hc2]
      exact hac
  | cancel now u bid =>
    cases hc : cancel_booking now u bid db with
    | error e =>
      simp only [step, hc]
      exact h
    | ok db' =>
      simp only [step, hc]
      obtain ⟨booking, hfind, -, hbks, -, -⟩ := cancel_booking_ok hc
      unfold uniqueUserActivity at *
      rw [hbks]
      exact h.sublist (List.filter_sublist _)

lemma run_preserves_idsOk {db : DB} (ops : List Op) (h : idsOk db) :
    idsOk (run db ops) := by
  induction ops generalizing db with
  | nil => exact h
  | cons op ops ih =>
    exact ih (step_preserves_idsOk op h)

lemma run_preserves_ledgerInv {db : DB} (ops : List Op) (hids : idsOk db)
    (h : ledgerInv db) : ledgerInv (run db ops) := by
  induction ops generalizing db with
  | nil => exact h
  | cons op ops ih =>
    exact ih (step_preserves_idsOk op hids) (step_preserves_ledgerInv op hids h)

lemma run_preserves_consInv {db : DB} (ops : List Op) (hids : idsOk db)
    (h : consInv db) : consInv (run db ops) := by
  induction ops generalizing db with
  | nil => exact h
  | cons op ops ih =>
    exact ih (step_preserves_idsOk op hids) (step_preserves_consInv op hids h)

lemma run_preserves_uniqueUserActivity {db : DB} (ops : List Op)
    (hids : idsOk db) (h : uniqueUserActivity db) :
    uniqueUserActivity (run db ops) := by
  induction ops generalizing db with
  | nil => exact h
  | cons op ops ih =>
    exact ih (step_preserves_idsOk op hids)
      (step_preserves_uniqueUserActivity op hids h)

/-! ## Claim C1 -/

/-- A customer who owns the single stored booking. -/
def userC1 : UserModel := { id := 1, role := UserRole.customer }

/-- State with `0 ≤ current_capacity ≤ max_capacity` but a booking row
holding more tickets than the ledger records. -/
def dbC1 : DB :=
  { activity :=
      { id := 1
        date_time := { wall := 864000, tz := none }
        max_capacity := 10
        current_capacity := 0
        is_active := true }
    bookings :=
      [{ id := 1, user_id := 1, activity_id := 1, tickets_number := 5,
         status := BookingStatus.upcoming }]
    nextId := 2 }

/-- Resize the stored booking from 5 tickets down to 1. -/
def opC1 : Op :=
  Op.update 0 userC1 1 { tickets_number := some 1, status := none }

/-- C1 is false as stated: from a state satisfying only
`0 ≤ current_capacity ≤ max_capacity`, one Update (resizing a booking
of 5 tickets down to 1 while the ledger reads 0) commits
`current_capacity = -4`: the update path applies the negative delta
with no lower-bound check. -/
theorem C1_counterexample : capInv dbC1 ∧ ¬ capInv (step dbC1 opC1) := by
  decide

/-- C1 (amended): for every activity and every sequence of booking
operations starting from a state where `0 ≤ current_capacity ≤
max_capacity`, where booking ids are distinct primary keys below the
autoincrement counter, every booking holds at least one ticket and the
booked tickets total at most `current_capacity`, every committed state
satisfies `0 ≤ current_capacity ≤ max_capacity`. -/
theorem C1_capacity_invariant (db : DB) (ops : List Op)
    (hids : idsOk db) (h : ledgerInv db) : capInv (run db ops) :=
  (run_preserves_ledgerInv ops hids h).2.2

/-- An empty activity slice used to instantiate the run theorems. -/
def dbEmpty : DB :=
  { activity :=
      { id := 1
        date_time := { wall := 432000, tz := none }
        max_capacity := 10
        current_capacity := 0
        is_active := true }
    bookings := []
    nextId := 1 }

/-- Concrete instantiation of `C1_capacity_invariant`: an empty
activity, one successful creation of 3 tickets. -/
theorem C1_capacity_invariant_witness :
    idsOk dbEmpty ∧ ledgerInv dbEmpty ∧
    capInv (run dbEmpty
      [Op.create 0 { id := 7, role := UserRole.customer }
        { activity_id := 1, tickets_number := 3 }]) :=
  ⟨by decide, by decide,
   C1_capacity_invariant _ _ (by decide) (by decide)⟩

/-! ## Claim C3 -/

/-- C3: from an initial state with `current_capacity = 0` and no
bookings, after any sequence of booking operations the tickets held by
the booking rows of the activity add up exactly to its
`current_capacity`. -/
theorem C3_conservation (db : DB) (ops : List Op)
    (h1 : db.bookings = []) (h2 : db.activity.current_capacity = 0) :
    conservation (run db ops) := by
  have hids : idsOk db := by
    unfold idsOk
    rw [h1]
    simp
  have hcons : consInv db := by
    refine ⟨?_, ?_, ?_⟩
    · intro b hb
      rw [h1] at hb
      simp at hb
    · intro b hb
      rw [h1] at hb
      simp at hb
    · unfold conservation sumTickets
      rw [h1, h2]
      simp
  exact (run_preserves_consInv ops hids hcons).2.2

/-- Concrete instantiation of `C3_conservation`: create 2 tickets,
resize to 4, then cancel. -/
theorem C3_conservation_witness :
    dbEmpty.bookings = [] ∧ dbEmpty.activity.current_capacity = 0 ∧
    conservation (run dbEmpty
      [Op.create 0 { id := 7, role := UserRole.customer }
         { activity_id := 1, tickets_number := 2 },
       Op.update 0 { id := 7, role := UserRole.customer } 1
         { tickets_number := some 4, status := none },
       Op.cancel 0 { id := 7, role := UserRole.customer } 1]) :=
  ⟨by decide, by decide, C3_conservation _ _ (by decide) (by decide)⟩

/-! ## Claim C4 -/

/-- C4: starting from any state whose booking ids are well-formed
primary keys and which holds at most one booking per (user, activity)
pair, every state reachable by booking operations still holds at most
one booking per (user, activity) pair: `create_booking` rejects a
duplicate with an error and creates nothing, and no other operation
creates rows. -/
theorem C4_unique_user_activity (db : DB) (ops : List Op)
    (hids : idsOk db) (h : uniqueUserActivity db) :
    uniqueUserActivity (run db ops) :=
  run_preserves_uniqueUserActivity ops hids h

/-- A slice already holding one booking by user 7. -/
def dbOneBooking : DB :=
  { activity :=
      { id := 1
        date_time := { wall := 432000, tz := none }
        max_capacity := 10
        current_capacity := 2
        is_active := true }
    bookings :=
      [{ id := 1, user_id := 7, activity_id := 1, tickets_number := 2,
         status := BookingStatus.upcoming }]
    nextId := 2 }

/-- Concrete instantiation of `C4_unique_user_activity`: a duplicate
creation attempt by user 7 (rejected) and a fresh creation by user 8. -/
theorem C4_unique_user_activity_witness :
    idsOk dbOneBooking ∧ uniqueUserActivity dbOneBooking ∧
    uniqueUserActivity (run dbOneBooking
      [Op.create 0 { id := 7, role := UserRole.customer }
         { activity_id := 1, tickets_number := 1 },
       Op.create 0 { id := 8, role := UserRole.customer }
         { activity_id := 1, tickets_number := 1 }]) :=
  ⟨by decide, by decide, C4_unique_user_activity _ _ (by decide) (by decide)⟩

/-! ## Claim C2 -/

/-- The precondition chain of the (amended) claim, written from the
spec's words with the activity-active clause dropped: first failure
wins, in the order admin role, activity existence, past date, ticket
count, capacity, duplicate booking; `none` means every check passed.
This is the spec side of the refinement, to be compared against
`create_booking`. -/
def createPreconditionSpec (now : Int) (u : UserModel) (req : BookingCreate)
    (db : DB) : Option ApiError :=
  if u.role = UserRole.admin then some ApiError.adminForbidden
  else
    match lookupActivity db req.activity_id with
    | none => some ApiError.activityNotFound
    | some a =>
      if instantOf (ensure_aware_datetime a.date_time) < now then
        some ApiError.pastActivity
      else if req.tickets_number < 1 then some ApiError.badTicketCount
      else if req.tickets_number > a.max_capacity - a.current_capacity then
        some ApiError.capacityExceeded
      else if db.bookings.any (fun b =>
          b.user_id == u.id && b.activity_id == req.activity_id) then
        some ApiError.duplicateBooking
      else none

/-- An existing, future-dated, but inactive activity with free spots. -/
def dbInactive : DB :=
  { activity :=
      { id := 1
        date_time := { wall := 432000, tz := none }
        max_capacity := 10
        current_capacity := 0
        is_active := false }
    bookings := []
    nextId := 1 }

/-- C2 is false as stated: `create_booking` never reads `is_active`,
so a Create request against an existing inactive activity succeeds and
a booking row is committed. -/
theorem C2_counterexample :
    dbInactive.activity.is_active = false ∧
    (create_booking 0 { id := 7, role := UserRole.customer }
       { activity_id := 1, tickets_number := 1 } dbInactive).isOk = true ∧
    (step dbInactive (Op.create 0 { id := 7, role := UserRole.customer }
       { activity_id := 1, tickets_number := 1 })).bookings.length = 1 := by
  decide

/-- C2 (amended): Create checks its preconditions in this order, first
failure winning: actor not an administrator (403); activity exists
(404); activity date not strictly before now (400); `tickets_number ≥
1` (400); requested tickets at most `max_capacity − current_capacity`
(400); no existing booking for the (user, activity) pair (400).  The
`is_active` flag is never consulted.  Stated as: the controller
rejects with exactly the error the spec-side precondition chain
produces, and succeeds exactly when that chain passes. -/
theorem C2_create_check_order (now : Int) (u : UserModel)
    (req : BookingCreate) (db : DB) :
    (∀ e : ApiError, create_booking now u req db = Except.error e ↔
      createPreconditionSpec now u req db = some e) ∧
    ((create_booking now u req db).isOk = true ↔
      createPreconditionSpec now u req db = none) := by
  unfold create_booking createPreconditionSpec
  dsimp only
  split
  · simp [Except.isOk, Except.toBool]
  · split
    · simp [Except.isOk, Except.toBool]
    · split
      · simp [Except.isOk, Except.toBool]
      · split
        · simp [Except.isOk, Except.toBool]
        · split
          · simp [Except.isOk, Except.toBool]
          · split
            · simp [Except.isOk, Except.toBool]
            · simp [Except.isOk, Except.toBool]

/-! ## Claim C5 -/

/-- The classifier ignores the offset component entirely: it compares
the calendar dates read off the wall clocks. -/
lemma update_status_eq (A : PyDateTime) (now : Int) :
    update_status A now =
      if Int.fdiv A.wall 86400 < Int.fdiv now 86400 then BookingStatus.past
      else if Int.fdiv A.wall 86400 = Int.fdiv now 86400 then BookingStatus.today
      else BookingStatus.upcoming := by
  unfold update_status
  dsimp only
  have hd : dateOf (if A.tz = none then { A with tz := some 0 } else A) =
      Int.fdiv A.wall 86400 := by
    unfold dateOf
    split <;> rfl
  rw [hd]

/-- C5: the booking status classifier is a pure, deterministic function
of the calendar dates of the activity instant `A` and the current
instant `now`, both interpreted in UTC (a timezone-naive stored
instant is treated as UTC; `now` is UTC by construction): it returns
`past` iff `date(A) < date(now)`, `today` iff the dates are equal and
`upcoming` iff `date(A) > date(now)`, and any two inputs with the same
calendar dates classify identically, independent of time of day. -/
theorem C5_classifier (A : PyDateTime) (now : Int)
    (hA : A.tz = none ∨ A.tz = some 0) :
    (update_status A now = BookingStatus.past ↔
      Int.fdiv A.wall 86400 < Int.fdiv now 86400) ∧
    (update_status A now = BookingStatus.today ↔
      Int.fdiv A.wall 86400 = Int.fdiv now 86400) ∧
    (update_status A now = BookingStatus.upcoming ↔
      Int.fdiv now 86400 < Int.fdiv A.wall 86400) ∧
    (∀ (A' : PyDateTime) (now' : Int), (A'.tz = none ∨ A'.tz = some 0) →
      Int.fdiv A'.wall 86400 = Int.fdiv A.wall 86400 →
      Int.fdiv now' 86400 = Int.fdiv now 86400 →
      update_status A' now' = update_status A now) := by
  rw [update_status_eq]
  rcases lt_trichotomy (Int.fdiv A.wall 86400) (Int.fdiv now 86400) with hlt | heq | hgt
  · rw [if_pos hlt]
    refine ⟨by simp [hlt], by simp [hlt] <;> omega, by simp [hlt] <;> omega, ?_⟩
    intro A' now' hA' hd1 hd2
    rw [update_status_eq, hd1, hd2, if_pos hlt]
  · rw [if_neg (by omega), if_pos heq]
    refine ⟨by simp [heq] <;> omega, by simp [heq], by simp [heq] <;> omega, ?_⟩
    intro A' now' hA' hd1 hd2
    rw [update_status_eq, hd1, hd2, if_neg (by omega), if_pos heq]
  · rw [if_neg (by omega), if_neg (by omega)]
    refine ⟨by simp <;> omega, by simp <;> omega, by simp <;> omega, ?_⟩
    intro A' now' hA' hd1 hd2
    rw [update_status_eq, hd1, hd2, if_neg (by omega), if_neg (by omega)]

/-- Concrete instantiation of `C5_classifier` at a naive activity
instant on day 1 (01:00) against a now on day 0 (02:00). -/
theorem C5_classifier_witness :
    (({ wall := 90000, tz := none } : PyDateTime).tz = none ∨
      ({ wall := 90000, tz := none } : PyDateTime).tz = some 0) ∧
    (update_status { wall := 90000, tz := none } 7200 = BookingStatus.upcoming ↔
      Int.fdiv 7200 86400 < Int.fdiv 90000 86400) :=
  ⟨Or.inl rfl,
   (C5_classifier { wall := 90000, tz := none } 7200 (Or.inl rfl)).2.2.1⟩

/-! ## Claim C9 -/

/-- C9: the stored and returned status of a booking never comes from
the client: two Update requests on the same state differing only in
the `status` field of the payload produce identical results, because
`update_status` recomputes the status from the activity date and the
current time after the payload fields are applied. -/
theorem C9_status_not_client_settable (now : Int) (u : UserModel) (bid : Int)
    (t : Option Int) (s1 s2 : Option BookingStatus) (db : DB) :
    update_booking now u bid { tickets_number := t, status := s1 } db =
      update_booking now u bid { tickets_number := t, status := s2 } db := rfl

/-! ## Claim C8 -/

/-- C8 (amended): under a valid status filter `S`, every booking in
the list returned by `get_my_bookings` had *stored* status `S` when
the query ran and belongs to the requester; each returned status is
then recomputed from the activity date against the current time, so
it can differ from `S` when the stored value was stale. -/
theorem C8_filter_stored_status (now : Int) (u : UserModel)
    (fs : FilterString) (st : BookingStatus) (db db' : DB)
    (l : List BookingModel)
    (hst : statusOfFilter fs = some st)
    (h : get_my_bookings now u (some fs) db = Except.ok (db', l)) :
    ∀ b ∈ l, b.status = update_status db.activity.date_time now ∧
      ∃ b0 ∈ db.bookings, b0.user_id = u.id ∧ b0.status = st ∧
        b = { b0 with status := update_status db.activity.date_time now } := by
  unfold get_my_bookings at h
  dsimp only at h
  rw [hst] at h
  dsimp only at h
  rw [Except.ok.injEq, Prod.mk.injEq] at h
  obtain ⟨-, rfl⟩ := h
  intro b hb
  rcases List.mem_map.mp hb with ⟨b0, hb0, rfl⟩
  rcases List.mem_filter.mp hb0 with ⟨hb0mem, hb0sel⟩
  unfold myBookingSelected at hb0sel
  simp only [Bool.and_eq_true, beq_iff_eq] at hb0sel
  exact ⟨rfl, b0, hb0mem, hb0sel.1, hb0sel.2, rfl⟩

/-- A stored booking whose status cache is stale: the activity is
three days past but the row still says `upcoming`. -/
def dbStale : DB :=
  { activity :=
      { id := 1
        date_time := { wall := 0, tz := none }
        max_capacity := 10
        current_capacity := 1
        is_active := true }
    bookings :=
      [{ id := 1, user_id := 7, activity_id := 1, tickets_number := 1,
         status := BookingStatus.upcoming }]
    nextId := 2 }

/-- C8 is false as stated: filtering my bookings by `upcoming` against
`dbStale` returns one booking whose (recomputed) status is `past`, not
`upcoming` — the SQL filter ran against the stale stored status and
the refresh afterwards changed it. -/
theorem C8_counterexample :
    (get_my_bookings 259200 { id := 7, role := UserRole.customer }
        (some FilterString.upcoming) dbStale).toOption.map
      (fun p => p.2.map BookingModel.status) = some [BookingStatus.past] := by
  decide

/-- Concrete instantiation of `C8_filter_stored_status` on `dbStale`. -/
theorem C8_filter_stored_status_witness :
    statusOfFilter FilterString.upcoming = some BookingStatus.upcoming ∧
    ∀ b ∈ (get_my_bookings 259200 { id := 7, role := UserRole.customer }
        (some FilterString.upcoming) dbStale).toOption.elim [] Prod.snd,
      b.status = update_status dbStale.activity.date_time 259200 ∧
      ∃ b0 ∈ dbStale.bookings, b0.user_id = 7 ∧
        b0.status = BookingStatus.upcoming ∧
        b = { b0 with status := update_status dbStale.activity.date_time 259200 } := by
  refine ⟨rfl, ?_⟩
  exact C8_filter_stored_status 259200 { id := 7, role := UserRole.customer }
    FilterString.upcoming BookingStatus.upcoming dbStale _ _ rfl rfl

/-! ## Claim C6 -/

/-- C6: once the earlier Create preconditions hold (customer actor,
existing activity, not past, at least one ticket), `create_booking`
fails with the capacity error iff `tickets_number` exceeds
`max_capacity − current_capacity`; such a failure commits nothing, and
a success raises `current_capacity` by exactly `tickets_number` and
appends a booking holding that many tickets. -/
theorem C6_capacity_check (now : Int) (u : UserModel) (req : BookingCreate)
    (db : DB)
    (hrole : u.role ≠ UserRole.admin)
    (hid : req.activity_id = db.activity.id)
    (hpast : ¬ instantOf (ensure_aware_datetime db.activity.date_time) < now)
    (htick : 1 ≤ req.tickets_number) :
    (create_booking now u req db = Except.error ApiError.capacityExceeded ↔
      req.tickets_number >
        db.activity.max_capacity - db.activity.current_capacity) ∧
    (req.tickets_number >
        db.activity.max_capacity - db.activity.current_capacity →
      step db (Op.create now u req) = db) ∧
    (∀ db' b, create_booking now u req db = Except.ok (db', b) →
      db'.activity.current_capacity =
        db.activity.current_capacity + req.tickets_number ∧
      b.tickets_number = req.tickets_number ∧
      db'.bookings = db.bookings ++ [b]) := by
  have hlk : lookupActivity db req.activity_id = some db.activity := by
    unfold lookupActivity
    rw [if_pos hid.symm]
  have herr : req.tickets_number >
        db.activity.max_capacity - db.activity.current_capacity →
      create_booking now u req db = Except.error ApiError.capacityExceeded := by
    intro hcap
    unfold create_booking
    rw [if_neg hrole, hlk]
    dsimp only
    rw [if_neg hpast, if_neg (by omega), if_pos hcap]
  refine ⟨⟨?_, herr⟩, ?_, ?_⟩
  · intro h
    by_contra hcap
    unfold create_booking at h
    rw [if_neg hrole, hlk] at h
    dsimp only at h
    rw [if_neg hpast, if_neg (by omega), if_neg hcap] at h
    split at h
    · simp at h
    · simp at h
  · intro hcap
    simp only [step, herr hcap]
  · intro db' b h
    obtain ⟨-, -, -, -, -, -, -, -, -, hbt, -, hact, hbks, -⟩ :=
      create_booking_ok h
    exact ⟨by rw [hact], hbt, hbks⟩

/-- An activity with 5 places of which 4 are taken, as in the spec's
rejection scenario. -/
def dbFourOfFive : DB :=
  { activity :=
      { id := 1
        date_time := { wall := 432000, tz := none }
        max_capacity := 5
        current_capacity := 4
        is_active := true }
    bookings :=
      [{ id := 1, user_id := 9, activity_id := 1, tickets_number := 4,
         status := BookingStatus.upcoming }]
    nextId := 2 }

/-- Concrete instantiation of `C6_capacity_check`: requesting 2
tickets with 1 spot free. -/
theorem C6_capacity_check_witness :
    (create_booking 0 { id := 7, role := UserRole.customer }
        { activity_id := 1, tickets_number := 2 } dbFourOfFive =
      Except.error ApiError.capacityExceeded ↔
      (2 : Int) > dbFourOfFive.activity.max_capacity
        - dbFourOfFive.activity.current_capacity) ∧
    ((2 : Int) > dbFourOfFive.activity.max_capacity
        - dbFourOfFive.activity.current_capacity →
      step dbFourOfFive (Op.create 0 { id := 7, role := UserRole.customer }
        { activity_id := 1, tickets_number := 2 }) = dbFourOfFive) ∧
    (∀ db' b, create_booking 0 { id := 7, role := UserRole.customer }
        { activity_id := 1, tickets_number := 2 } dbFourOfFive =
        Except.ok (db', b) →
      db'.activity.current_capacity =
        dbFourOfFive.activity.current_capacity + 2 ∧
      b.tickets_number = 2 ∧
      db'.bookings = dbFourOfFive.bookings ++ [b]) :=
  C6_capacity_check 0 { id := 7, role := UserRole.customer }
    { activity_id := 1, tickets_number := 2 } dbFourOfFive
    (by decide) (by decide) (by decide) (by decide)

/-! ## Claim C7 -/

/-- C7: Cancel by the booking's owner or an administrator on an
existing booking whose activity resolves: a past-dated activity makes
the request fail with the booking and the ledger unchanged; otherwise
the row is deleted and `current_capacity` becomes
`max 0 (current_capacity − tickets_number)` — releasing more tickets
than reserved floors the counter at 0. -/
theorem C7_cancel (now : Int) (u : UserModel) (bid : Int) (db : DB)
    (booking : BookingModel)
    (hfind : db.bookings.find? (fun x => x.id == bid) = some booking)
    (hown : ¬(u.role ≠ UserRole.admin ∧ booking.user_id ≠ u.id))
    (hact : db.activity.id = booking.activity_id) :
    (instantOf (ensure_aware_datetime db.activity.date_time) < now →
      cancel_booking now u bid db = Except.error ApiError.pastActivity ∧
      step db (Op.cancel now u bid) = db) ∧
    (¬ instantOf (ensure_aware_datetime db.activity.date_time) < now →
      cancel_booking now u bid db = Except.ok
        { db with
            activity :=
              { db.activity with
                  current_capacity :=
                    max 0 (db.activity.current_capacity
                      - booking.tickets_number) }
            bookings := db.bookings.filter (fun x => !(x.id == bid)) }) := by
  have hlk : lookupActivity db booking.activity_id = some db.activity := by
    unfold lookupActivity
    rw [if_pos hact]
  constructor
  · intro hpast
    have herr : cancel_booking now u bid db =
        Except.error ApiError.pastActivity := by
      unfold cancel_booking
      rw [hfind]
      dsimp only
      rw [if_neg hown, hlk]
      dsimp only
      rw [if_pos hpast]
    exact ⟨herr, by simp only [step, herr]⟩
  · intro hpast
    unfold cancel_booking
    rw [hfind]
    dsimp only
    rw [if_neg hown, hlk]
    dsimp only
    rw [if_neg hpast]
    have hmax : (if db.activity.current_capacity - booking.tickets_number < 0
          then 0 else db.activity.current_capacity - booking.tickets_number) =
        max 0 (db.activity.current_capacity - booking.tickets_number) := by
      split <;> omega
    rw [hmax]

/-- Concrete instantiation of `C7_cancel`: owner cancels the 4-ticket
booking on the future-dated activity of `dbFourOfFive`. -/
theorem C7_cancel_witness :
    (instantOf (ensure_aware_datetime dbFourOfFive.activity.date_time) < 0 →
      cancel_booking 0 { id := 9, role := UserRole.customer } 1 dbFourOfFive =
        Except.error ApiError.pastActivity ∧
      step dbFourOfFive (Op.cancel 0 { id := 9, role := UserRole.customer } 1) =
        dbFourOfFive) ∧
    (¬ instantOf (ensure_aware_datetime dbFourOfFive.activity.date_time) < 0 →
      cancel_booking 0 { id := 9, role := UserRole.customer } 1 dbFourOfFive =
        Except.ok
          { dbFourOfFive with
              activity :=
                { dbFourOfFive.activity with
                    current_capacity :=
                      max 0 (dbFourOfFive.activity.current_capacity - 4) }
              bookings :=
                dbFourOfFive.bookings.filter (fun x => !(x.id == 1)) }) :=
  C7_cancel 0 { id := 9, role := UserRole.customer } 1 dbFourOfFive
    { id := 1, user_id := 9, activity_id := 1, tickets_number := 4,
      status := BookingStatus.upcoming }
    (by decide) (by decide) (by decide)

/-! ## Claim C10 -/

/-- C10: a booking returned by a successful Create is never `past`:
the past-activity check guarantees the activity instant is not before
`now`, and (with the stored instant naive or UTC, as the schema
stores it) an instant at or after `now` has a calendar date at or
after today's, so the classifier yields `today` or `upcoming`. -/
theorem C10_no_past_status (now : Int) (u : UserModel) (req : BookingCreate)
    (db db' : DB) (b : BookingModel)
    (htz : db.activity.date_time.tz = none ∨ db.activity.date_time.tz = some 0)
    (h : create_booking now u req db = Except.ok (db', b)) :
    b.status = BookingStatus.today ∨ b.status = BookingStatus.upcoming := by
  obtain ⟨-, -, hpast, -, -, -, -, -, -, -, hst, -, -, -⟩ := create_booking_ok h
  have hwall : instantOf (ensure_aware_datetime db.activity.date_time) =
      db.activity.date_time.wall := by
    rcases htz with h0 | h0 <;>
      simp [ensure_aware_datetime, instantOf, h0]
  have hdate : dateOf (ensure_aware_datetime db.activity.date_time) =
      Int.fdiv db.activity.date_time.wall 86400 := by
    rcases htz with h0 | h0 <;>
      simp [ensure_aware_datetime, dateOf, h0]
  have hge : now ≤ db.activity.date_time.wall := by
    rw [hwall] at hpast
    omega
  have hd : Int.fdiv now 86400 ≤ Int.fdiv db.activity.date_time.wall 86400 :=
    fdiv_day_mono hge
  rw [hdate] at hst
  by_cases h1 : Int.fdiv db.activity.date_time.wall 86400 < Int.fdiv now 86400
  · omega
  · rw [if_neg h1] at hst
    by_cases h2 : Int.fdiv db.activity.date_time.wall 86400 = Int.fdiv now 86400
    · rw [if_pos h2] at hst
      exact Or.inl hst
    · rw [if_neg h2] at hst
      exact Or.inr hst

/-- The state committed by the creation on `dbEmpty`. -/
def dbAfterCreate : DB :=
  { activity :=
      { id := 1
        date_time := { wall := 432000, tz := none }
        max_capacity := 10
        current_capacity := 3
        is_active := true }
    bookings :=
      [{ id := 1, user_id := 7, activity_id := 1, tickets_number := 3,
         status := BookingStatus.upcoming }]
    nextId := 2 }

/-- The booking committed by the creation on `dbEmpty`. -/
def bAfterCreate : BookingModel :=
  { id := 1, user_id := 7, activity_id := 1, tickets_number := 3,
    status := BookingStatus.upcoming }

/-- Concrete instantiation of `C10_no_past_status`: the creation on
`dbEmpty` commits an `upcoming` booking. -/
theorem C10_no_past_status_witness :
    (dbEmpty.activity.date_time.tz = none ∨
      dbEmpty.activity.date_time.tz = some 0) ∧
    (bAfterCreate.status = BookingStatus.today ∨
      bAfterCreate.status = BookingStatus.upcoming) :=
  ⟨Or.inl rfl,
   C10_no_past_status 0 { id := 7, role := UserRole.customer }
     { activity_id := 1, tickets_number := 3 } dbEmpty
     dbAfterCreate bAfterCreate (Or.inl rfl) rfl⟩
